import Mathlib

/-!
Shallow embedding of the routing pipeline and upstream health model of the
simple-erpc-gateway repository, together with theorems settling the frozen
claims about it.

Conventions of the embedding:
* JavaScript numbers holding timestamps, counters and priorities become
  `Nat` / `Int`; the floating-point error rate `errors / max(total, 1)`
  becomes an exact rational (`ℚ`).
* `Date.now()` is passed explicitly as a `now : Nat` argument (one reading
  per operation, as the readings inside one call are intended to coincide).
* A JavaScript value that may be `undefined` is an `Option`; a list-valued
  variable that may hold `undefined` instead of an array is
  `Option (List _)` with `none` playing `undefined`.
* A function that can throw a `TypeError` (property access or iteration on
  `undefined`) returns `Option _`, `none` being the thrown exception.
* JavaScript `Map` objects become association lists with JS `Map.set`
  semantics (update in place, else append).
-/

namespace ERPC

/-- Association-list lookup, modelling `Map.get` (returns `undefined`, i.e.
`none`, for a missing key). -/
def alistGet {α : Type} (m : List (String × α)) (k : String) : Option α :=
  (m.find? (fun p => p.fst == k)).map (fun p => p.snd)

/-- Association-list update, modelling `Map.set`: replaces the value of an
existing key in place, otherwise appends the new binding. -/
def alistSet {α : Type} (m : List (String × α)) (k : String) (v : α) :
    List (String × α) :=
  if (m.find? (fun p => p.fst == k)).isSome then
    m.map (fun p => if p.fst == k then (k, v) else p)
  else
    m ++ [(k, v)]

/-- Node kind of an upstream (`type: 'full' | 'archive'` in `types/index.ts`). -/
inductive NodeType
  | full
  | archive
deriving DecidableEq

/-- UpstreamConfig from `types/index.ts`, together with the two optional
fields (`ignoredMethods`, `evmStartBlock`) that the routing operations read
from configured upstream objects at runtime. -/
structure UpstreamConfig where
  id : String
  rpcUrl : String := ""
  type : NodeType
  priority : Int
  ignoredMethods : Option (List String) := none
  evmStartBlock : Option Int := none
deriving DecidableEq

/-- UpstreamHealth from `types/index.ts`, plus the `methodStats` map that
`MetricsHandlingOps` attaches lazily. -/
structure UpstreamHealth where
  errors : List Nat
  totalRequests : Nat
  totalErrors : Nat
  consecutiveErrors : Nat
  lastError : Option Nat
  lastSuccessfulRequest : Nat
  isHealthy : Bool
  failoverUntil : Nat
  responseTime : Nat
  methodStats : Option (List (String × Nat)) := none
deriving DecidableEq

/-- Shared per-project health map (`Map<string, UpstreamHealth>`). -/
abbrev HealthMap := List (String × UpstreamHealth)

/-- HealthConfig from `types/index.ts` (the fields the embedded code uses). -/
structure HealthConfig where
  errorRateWindowMs : Nat
  maxConsecutiveErrors : Nat
  failoverCooldownMs : Nat
deriving DecidableEq

/-- ProjectConfig from `types/index.ts` (the fields the embedded code uses). -/
structure ProjectConfig where
  upstreams : List UpstreamConfig
  errorRateThreshold : ℚ
  health : HealthConfig
deriving DecidableEq

/-- AppConfig from `types/index.ts` (the field the embedded code uses). -/
structure AppConfig where
  historicalMethods : List String
deriving DecidableEq

/-- LocalNodeStatus from `types/index.ts`. -/
structure LocalNodeStatus where
  earliestBlockHeight : Int
  latestBlockHeight : Int
  catchingUp : Bool
  lastUpdated : Nat
deriving DecidableEq

/-- Failure timestamps still inside the sliding window: the filter
`errorTime => now - errorTime < windowMs` shared by
`UpstreamService.calculateErrorRate` and `ErrorRatesOps.execute`. -/
def recentErrors (windowMs : Nat) (now : Nat) (errors : List Nat) : List Nat :=
  errors.filter (fun t => (now : Int) - (t : Int) < (windowMs : Int))

/-- Windowed error rate `recentErrors.length / Math.max(totalRequests, 1)`,
as an exact rational (`mkRat` is exact division here since the denominator
is at least one). -/
def windowedRate (cfg : ProjectConfig) (now : Nat) (errors : List Nat)
    (totalRequests : Nat) : ℚ :=
  mkRat ((recentErrors cfg.health.errorRateWindowMs now errors).length : Int)
    (max totalRequests 1)

/-- UpstreamService.calculateErrorRate: early `0` when `totalRequests` is
zero, otherwise prunes the stored failure timestamps to the window (a
mutation of the record) and returns the windowed rate. Returns the rate
together with the record after the pruning side effect. -/
def calculateErrorRate (cfg : ProjectConfig) (now : Nat) (h : UpstreamHealth) :
    ℚ × UpstreamHealth :=
  if h.totalRequests = 0 then (0, h)
  else
    let recent := recentErrors cfg.health.errorRateWindowMs now h.errors
    (mkRat (recent.length : Int) (max h.totalRequests 1),
      { h with errors := recent })

/-- UpstreamService.recordRequestResult, acting on one health record. -/
def recordRequestResult (cfg : ProjectConfig) (h : UpstreamHealth)
    (success : Bool) (responseTime : Nat) (now : Nat) : UpstreamHealth :=
  let h0 := { h with totalRequests := h.totalRequests + 1,
                     responseTime := responseTime }
  let h1 :=
    if success then
      { h0 with consecutiveErrors := 0, lastSuccessfulRequest := now }
    else
      let hf := { h0 with totalErrors := h0.totalErrors + 1,
                          consecutiveErrors := h0.consecutiveErrors + 1,
                          lastError := some now,
                          errors := h0.errors ++ [now] }
      let p := calculateErrorRate cfg now hf
      if cfg.errorRateThreshold < p.1 ∨
          cfg.health.maxConsecutiveErrors ≤ p.2.consecutiveErrors then
        { p.2 with isHealthy := false,
                   failoverUntil := now + cfg.health.failoverCooldownMs }
      else p.2
  if success = true ∧ h1.failoverUntil < now then
    let q := calculateErrorRate cfg now h1
    if q.1 < cfg.errorRateThreshold ∧ q.2.consecutiveErrors = 0 then
      { q.2 with isHealthy := true }
    else q.2
  else h1

/-- UpstreamService.markUpstreamRecovered, acting on one health record. -/
def markUpstreamRecovered (cfg : ProjectConfig) (h : UpstreamHealth)
    (now : Nat) : UpstreamHealth :=
  if h.isHealthy = false ∧ h.failoverUntil < now then
    let p := calculateErrorRate cfg now h
    if p.1 < cfg.errorRateThreshold then { p.2 with isHealthy := true }
    else p.2
  else h

/-- The per-upstream body of the recovery loop in `ErrorRatesOps.execute`
(lines 17-32): recomputes the windowed rate without pruning and, when the
record is unhealthy with an elapsed cooldown and the rate is below the
threshold, flips it back to healthy. -/
def errorRatesRecovers (cfg : ProjectConfig) (now : Nat)
    (h : UpstreamHealth) : Bool :=
  decide (h.isHealthy = false ∧ h.failoverUntil < now ∧
    windowedRate cfg now h.errors h.totalRequests < cfg.errorRateThreshold)

/-- Effect of one iteration of the recovery loop in `ErrorRatesOps.execute`
on the health record it inspects. -/
def errorRatesRecoverOne (cfg : ProjectConfig) (now : Nat)
    (h : UpstreamHealth) : UpstreamHealth :=
  if errorRatesRecovers cfg now h then { h with isHealthy := true } else h

/-- Counter updates done by `MetricsHandlingOps.execute` on the selected
upstream's health record: bump `totalRequests` and the per-method counter. -/
def metricsBumpHealth (method : String) (h : UpstreamHealth) : UpstreamHealth :=
  let stats := match h.methodStats with
    | none => []
    | some ms => ms
  let current := (alistGet stats method).getD 0
  { h with totalRequests := h.totalRequests + 1,
           methodStats := some (alistSet stats method (current + 1)) }

/-- Loose JSON/JavaScript value, used for request parameters and for the
extracted block reference (the source annotates the latter as
`number | 'latest' | null` but can in fact return any parameter value
unchanged, including `undefined`). -/
inductive JVal
  | str (s : String)
  | num (n : Int)
  | boolv (b : Bool)
  | nullv
  | undef
  | obj (fields : List (String × JVal))
  | arr (elems : List JVal)

/-- JavaScript strict equality `v === lit` against a string literal: only a
string with the same contents compares equal. -/
def JVal.eqStr : JVal → String → Bool
  | .str s, t => s == t
  | _, _ => false

/-- Whether a `JVal` is a number (`typeof v === 'number'`). -/
def JVal.isNum : JVal → Bool
  | .num _ => true
  | _ => false

/-- Whether a `JVal` is JavaScript `null` (`v === null`). -/
def JVal.isNull : JVal → Bool
  | .nullv => true
  | _ => false

/-- JavaScript truthiness of a `JVal`. -/
def JVal.truthy : JVal → Bool
  | .str s => !s.isEmpty
  | .num n => decide (n ≠ 0)
  | .boolv b => b
  | .nullv => false
  | .undef => false
  | .obj _ => true
  | .arr _ => true

/-- Value of a hexadecimal digit, `none` for non-digits. -/
def hexDigitVal (c : Char) : Option Nat :=
  if '0' ≤ c ∧ c ≤ '9' then some (c.toNat - '0'.toNat)
  else if 'a' ≤ c ∧ c ≤ 'f' then some (c.toNat - 'a'.toNat + 10)
  else if 'A' ≤ c ∧ c ≤ 'F' then some (c.toNat - 'A'.toNat + 10)
  else none

/-- JavaScript `parseInt(s, 16)`: skip leading whitespace, optional sign,
optional `0x`/`0X` prefix, then the longest run of hexadecimal digits;
`none` models `NaN` (no digits). -/
def jsParseInt16 (s : String) : Option Int :=
  let cs := s.data.dropWhile (fun c => c.isWhitespace)
  let sign : Int := match cs with
    | '-' :: _ => -1
    | _ => 1
  let cs := match cs with
    | '-' :: rest => rest
    | '+' :: rest => rest
    | _ => cs
  let cs := match cs with
    | '0' :: 'x' :: rest => rest
    | '0' :: 'X' :: rest => rest
    | _ => cs
  let ds := cs.takeWhile (fun c => (hexDigitVal c).isSome)
  if ds.isEmpty then none
  else some (sign * (ds.foldl (fun acc c => acc * 16 + ((hexDigitVal c).getD 0)) (0 : Nat) : Nat))

mutual

/-- JavaScript `ToString` on a `JVal`: strings pass through, numbers print
in decimal, booleans and `null`/`undefined` print their keywords, plain
objects print `[object Object]`, and arrays join their elements with
commas (`Array.prototype.join`). -/
def jsToString : JVal → String
  | .str s => s
  | .num n => toString n
  | .boolv b => if b then "true" else "false"
  | .nullv => "null"
  | .undef => "undefined"
  | .obj _ => "[object Object]"
  | .arr xs => jsArrJoin xs

/-- JavaScript `Array.prototype.join` with the default `,` separator:
`null` and `undefined` elements become empty strings, every other element
is converted with `ToString`. -/
def jsArrJoin : List JVal → String
  | [] => ""
  | [JVal.nullv] => ""
  | [JVal.undef] => ""
  | [v] => jsToString v
  | JVal.nullv :: rest => "," ++ jsArrJoin rest
  | JVal.undef :: rest => "," ++ jsArrJoin rest
  | v :: rest => jsToString v ++ "," ++ jsArrJoin rest

end

/-- JavaScript `parseInt(v, 16)` applied to an arbitrary value, as
`BlockNumberExtractor` does to `filter.fromBlock`: the value is converted
with JavaScript `ToString` first (so `["0x5"]` stringifies to `0x5` and
parses to `5`), then parsed as base-16. -/
def jsParseInt16OfJVal (v : JVal) : Option Int :=
  jsParseInt16 (jsToString v)

/-- Fixed per-method block-parameter positions from
`BlockNumberExtractor.extract`. -/
def blockNumberMethodsTable : List (String × Nat) :=
  [("eth_getBlockByNumber", 0),
   ("eth_getBlockTransactionCountByNumber", 0),
   ("eth_getTransactionByBlockNumberAndIndex", 0),
   ("eth_getUncleByBlockNumberAndIndex", 0),
   ("eth_getUncleCountByBlockNumber", 0),
   ("debug_traceBlockByNumber", 0),
   ("trace_block", 0),
   ("trace_blockByNumber", 0),
   ("eth_getBalance", 1),
   ("eth_getCode", 1),
   ("eth_getStorageAt", 2),
   ("eth_call", 1)]

/-- BlockNumberExtractor.extract. `params = none` models a missing or
non-array `params`; a parameter index past the end of the list yields
`undefined`, which the source returns unchanged. -/
def extractBlockNumber (historicalMethods : List String) (method : String)
    (params : Option (List JVal)) : JVal :=
  match params with
  | none => JVal.nullv
  | some ps =>
    if method ∉ historicalMethods then JVal.nullv
    else
      match alistGet blockNumberMethodsTable method with
      | some idx =>
        let blockParam := ps.getD idx JVal.undef
        if blockParam.eqStr "latest" || blockParam.eqStr "pending" then
          JVal.str "latest"
        else if blockParam.eqStr "earliest" then JVal.num 0
        else
          match blockParam with
          | JVal.str s =>
            match jsParseInt16 s with
            | none => JVal.nullv
            | some n => JVal.num n
          | v => v
      | none =>
        if method = "eth_getLogs" then
          match ps.getD 0 JVal.undef with
          | JVal.obj fields =>
            let fromBlock := (alistGet fields "fromBlock").getD JVal.undef
            if fromBlock.truthy && !fromBlock.eqStr "latest" &&
                !fromBlock.eqStr "pending" then
              match jsParseInt16OfJVal fromBlock with
              | none => JVal.nullv
              | some n => JVal.num n
            else JVal.nullv
          | _ => JVal.nullv
        else JVal.nullv

/-- RoutingContext from `types/index.ts`. `availableUpstreams` is an
`Option` because the orchestrator can assign `undefined` to it (when a
stage result carries no `filteredUpstreams` field); `now` models the
`Date.now()` reading taken while the stage body runs. -/
structure RoutingContext where
  method : String
  blockNumber : JVal
  nodeStatus : Option LocalNodeStatus
  availableUpstreams : Option (List UpstreamConfig)
  upstreamHealth : HealthMap
  config : ProjectConfig
  appConfig : AppConfig
  selectedUpstream : Option UpstreamConfig := none
  now : Nat := 0

/-- Union of the result shapes the seven operations actually return at
runtime: the filter-style operations populate `filteredUpstreams` (and
`FinalSelectorOps` / `MetricsHandlingOps` also `selectedUpstream`), while
the stale selector-style `PriorityRoutingOps` populates the legacy
`upstream` field instead, leaving the other two `undefined` (`none`).
Human-readable `reason` strings are omitted. -/
structure RoutingResult where
  filteredUpstreams : Option (List UpstreamConfig) := none
  selectedUpstream : Option UpstreamConfig := none
  upstream : Option UpstreamConfig := none
  shouldContinue : Bool
deriving DecidableEq

/-- Result of running one operation: `none` models a thrown `TypeError`
(every throw site in the embedded operations occurs before any mutation of
the shared health map, so no map is returned in that case). -/
abbrev StageOutcome := Option (RoutingResult × HealthMap)

/-- One step of the recovery loop of `ErrorRatesOps.execute`, threading the
shared health map and accumulating the `recoveredUpstreams` list. -/
def errorRatesStep (cfg : ProjectConfig) (now : Nat)
    (acc : HealthMap × List UpstreamConfig) (u : UpstreamConfig) :
    HealthMap × List UpstreamConfig :=
  match alistGet acc.1 u.id with
  | none => acc
  | some h =>
    if errorRatesRecovers cfg now h then
      (alistSet acc.1 u.id { h with isHealthy := true }, acc.2 ++ [u])
    else acc

/-- ErrorRatesOps.execute (stage 1, registered as `RecoveryFilter`). With
`availableUpstreams` undefined the opening array spread throws. Note that
`allUpstreams` is a copy of the incoming candidate list, so the
last-resort branch taken when everything is empty returns that (empty)
copy and stops. -/
def errorRatesExecute (ctx : RoutingContext) : StageOutcome :=
  match ctx.availableUpstreams with
  | none => none
  | some l =>
    let acc := l.foldl (errorRatesStep ctx.config ctx.now) (ctx.upstreamHealth, [])
    let finalUpstreams := if 0 < l.length then l else acc.2
    if finalUpstreams.length = 0 then
      some ({ filteredUpstreams := some l,
              shouldContinue := decide (0 < l.length) }, acc.1)
    else
      some ({ filteredUpstreams := some finalUpstreams,
              shouldContinue := true }, acc.1)

/-- MethodRoutingOps.isMethodIgnored: wildcard patterns ending in `*` match
by prefix, all other patterns by exact equality. JS string operations are
modelled on the character lists of the Lean strings. -/
def isMethodIgnored (method : String) (ignoredMethods : List String) : Bool :=
  ignoredMethods.any (fun p =>
    if p.data.getLast? = some '*' then
      p.data.dropLast.isPrefixOf method.data
    else method == p)

/-- MethodRoutingOps.execute (stage 2): keeps the candidates that do not
ignore the request's method; continues iff any survive. -/
def methodRoutingExecute (ctx : RoutingContext) : StageOutcome :=
  match ctx.availableUpstreams with
  | none => none
  | some l =>
    let filtered := l.filter (fun u =>
      match u.ignoredMethods with
      | none => true
      | some ign => !isMethodIgnored ctx.method ign)
    some ({ filteredUpstreams := some filtered,
            shouldContinue := decide (0 < filtered.length) }, ctx.upstreamHealth)

/-- Truthiness-guarded EVM start-block filter of `BlockBasedRoutingOps`:
`upstream.evmStartBlock && blockNumber < upstream.evmStartBlock` drops the
candidate (a configured start block of `0` is falsy and never drops). -/
def evmIncompatible (n : Int) (u : UpstreamConfig) : Bool :=
  match u.evmStartBlock with
  | none => false
  | some s => decide (s ≠ 0 ∧ n < s)

/-- BlockBasedRoutingOps.execute (stage 3): EVM start-block filter for
numeric block references, then archive-vs-full preference; never stops the
pipeline itself. -/
def blockBasedExecute (ctx : RoutingContext) : StageOutcome :=
  match ctx.availableUpstreams with
  | none => none
  | some l =>
    if l.length = 0 then
      some ({ filteredUpstreams := some [], shouldContinue := true },
        ctx.upstreamHealth)
    else
      let evmCompatible := match ctx.blockNumber with
        | JVal.num n => l.filter (fun u => !evmIncompatible n u)
        | _ => l
      if ctx.blockNumber.isNum && decide (evmCompatible.length = 0) then
        some ({ filteredUpstreams := some [], shouldContinue := true },
          ctx.upstreamHealth)
      else
        let isHistoricalMethod := decide (ctx.method ∈ ctx.appConfig.historicalMethods)
        let nonArchive := evmCompatible.filter (fun u => !(u.type == NodeType.archive))
        let preferCheap :=
          if 0 < nonArchive.length then nonArchive else evmCompatible
        if !isHistoricalMethod || ctx.blockNumber.eqStr "latest" ||
            ctx.blockNumber.isNull then
          some ({ filteredUpstreams := some preferCheap, shouldContinue := true },
            ctx.upstreamHealth)
        else
          let oldArchive := match ctx.blockNumber with
            | JVal.num n =>
              if n < 169000000 then
                evmCompatible.filter (fun u => u.type == NodeType.archive)
              else []
            | _ => []
          if 0 < oldArchive.length then
            some ({ filteredUpstreams := some oldArchive, shouldContinue := true },
              ctx.upstreamHealth)
          else
            some ({ filteredUpstreams := some preferCheap, shouldContinue := true },
              ctx.upstreamHealth)

/-- The `for..of` scan of `PriorityRoutingOps.execute`: first candidate that
is not an archive node and whose health record exists and is healthy. -/
def priorityFind (hm : HealthMap) : List UpstreamConfig → Option UpstreamConfig
  | [] => none
  | u :: rest =>
    if u.type = NodeType.archive then priorityFind hm rest
    else
      match alistGet hm u.id with
      | some h => if h.isHealthy then some u else priorityFind hm rest
      | none => priorityFind hm rest

/-- PriorityRoutingOps.execute (stage 4): a stale selector-style operation.
It never returns a `filteredUpstreams` list; for historical methods it
defers, otherwise it reports the first healthy non-archive candidate in
the legacy `upstream` field (which the orchestrator does not read) and
stops, or defers when none is found. Iterating `undefined` throws. -/
def priorityRoutingExecute (ctx : RoutingContext) : StageOutcome :=
  if ctx.method ∈ ctx.appConfig.historicalMethods then
    some ({ upstream := none, shouldContinue := true }, ctx.upstreamHealth)
  else
    match ctx.availableUpstreams with
    | none => none
    | some l =>
      match priorityFind ctx.upstreamHealth l with
      | some u =>
        some ({ upstream := some u, shouldContinue := false }, ctx.upstreamHealth)
      | none =>
        some ({ upstream := none, shouldContinue := true }, ctx.upstreamHealth)

/-- FallbackArchivalRoutingOps.execute (stage 5, registered as
`ArchiveFilter`): for a historical method with a numeric block reference it
narrows to the archive candidates among the incoming list when any exist;
otherwise it passes the incoming list through and continues iff it is
non-empty. It never reads the full roster. Both branches dereference the
candidate list, so `undefined` throws. -/
def fallbackArchivalExecute (ctx : RoutingContext) : StageOutcome :=
  let isHistoricalMethod := decide (ctx.method ∈ ctx.appConfig.historicalMethods)
  match ctx.availableUpstreams with
  | none => none
  | some l =>
    let archiveUpstreams := l.filter (fun u => u.type == NodeType.archive)
    if isHistoricalMethod && ctx.blockNumber.isNum &&
        decide (0 < archiveUpstreams.length) then
      some ({ filteredUpstreams := some archiveUpstreams,
              shouldContinue := true }, ctx.upstreamHealth)
    else
      some ({ filteredUpstreams := some l,
              shouldContinue := decide (0 < l.length) }, ctx.upstreamHealth)

/-- FinalSelectorOps.execute (stage 6): stops on an empty candidate list,
otherwise selects the first candidate and continues. -/
def finalSelectorExecute (ctx : RoutingContext) : StageOutcome :=
  match ctx.availableUpstreams with
  | none => none
  | some [] =>
    some ({ filteredUpstreams := some [], shouldContinue := false },
      ctx.upstreamHealth)
  | some (u :: rest) =>
    some ({ filteredUpstreams := some (u :: rest), selectedUpstream := some u,
            shouldContinue := true }, ctx.upstreamHealth)

/-- MetricsHandlingOps.execute (stage 7): with a selection present, bumps
the selected upstream's counters and narrows to it; without one, passes the
(possibly undefined) candidate list through and signals stop. -/
def metricsHandlingExecute (ctx : RoutingContext) : StageOutcome :=
  match ctx.selectedUpstream with
  | some u =>
    let hm := match alistGet ctx.upstreamHealth u.id with
      | some h => alistSet ctx.upstreamHealth u.id (metricsBumpHealth ctx.method h)
      | none => ctx.upstreamHealth
    some ({ filteredUpstreams := some [u], selectedUpstream := some u,
            shouldContinue := true }, hm)
  | none =>
    some ({ filteredUpstreams := ctx.availableUpstreams,
            shouldContinue := false }, ctx.upstreamHealth)

/-- A registered routing operation: its `name` and its `execute` body. -/
structure StrategyOp where
  name : String
  exec : RoutingContext → StageOutcome

/-- Mutable state of the pipeline loop in `DefaultRoutingStrategy.execute`
(lines 47-92): the local `availableUpstreams` and `selectedUpstream`
variables, the shared health map, whether `context.error` has been set by a
caught stage exception, and the names of the operations whose `execute`
was invoked. -/
structure LoopState where
  availableUpstreams : Option (List UpstreamConfig)
  health : HealthMap
  selected : Option UpstreamConfig
  errored : Bool
  executed : List String

/-- Context handed to a stage: the base request data with the loop's current
candidate list, health map and selection patched in (line 55). -/
def mkCtx (base : RoutingContext) (s : LoopState) : RoutingContext :=
  { base with availableUpstreams := s.availableUpstreams,
              upstreamHealth := s.health,
              selectedUpstream := s.selected }

/-- The pipeline loop of `DefaultRoutingStrategy.execute` (lines 50-92).
A stage result carrying `selectedUpstream` breaks out of the loop at once
(line 73), before the remaining operations run. Otherwise the candidate
list is replaced by the result's `filteredUpstreams` (line 77) and the loop
breaks when the stage said stop or the list is empty; reading `.length` of
an `undefined` list throws, which the `catch` turns into `context.error`
and the loop moves on. A stage that throws leaves the candidate list
untouched. -/
def runOps (base : RoutingContext) : List StrategyOp → LoopState → LoopState
  | [], s => s
  | op :: rest, s =>
    let s0 := { s with executed := s.executed ++ [op.name] }
    match op.exec (mkCtx base s0) with
    | none => runOps base rest { s0 with errored := true }
    | some (res, hm) =>
      let s1 := { s0 with health := hm }
      match res.selectedUpstream with
      | some u => { s1 with selected := some u }
      | none =>
        let s2 := { s1 with availableUpstreams := res.filteredUpstreams }
        if res.shouldContinue = false then s2
        else
          match res.filteredUpstreams with
          | none => runOps base rest { s2 with errored := true }
          | some [] => s2
          | some (_ :: _) => runOps base rest s2

/-- Observable outcome of one `DefaultRoutingStrategy.execute` call. -/
inductive GatewayResponse
  | success (upstreamId : String)
  | rpcError (code : Int) (httpStatus : Nat)
  | thrown
deriving DecidableEq

/-- Outcome record: the reply sent (or the escaped exception), the ids of
the upstreams the request was proxied to, and the final health map. -/
structure ExecOutcome where
  response : GatewayResponse
  proxiedUpstreams : List String
  health : HealthMap
deriving DecidableEq

/-- UpstreamService.proxyRequest followed by the orchestrator's response
handling: one outbound call whose success is decided by the `proxySucceeds`
oracle, recorded into the health map; a failed call falls through to the
`-32603` / HTTP 502 error reply (lines 105-146). -/
def proxyAndRespond (cfg : ProjectConfig) (proxySucceeds : UpstreamConfig → Bool)
    (responseTime now : Nat) (hm : HealthMap) (u : UpstreamConfig) : ExecOutcome :=
  let ok := proxySucceeds u
  let hm := match alistGet hm u.id with
    | none => hm
    | some h => alistSet hm u.id (recordRequestResult cfg h ok responseTime now)
  if ok then
    { response := GatewayResponse.success u.id, proxiedUpstreams := [u.id],
      health := hm }
  else
    { response := GatewayResponse.rpcError (-32603) 502,
      proxiedUpstreams := [u.id], health := hm }

/-- Post-loop logic of `DefaultRoutingStrategy.execute` (lines 94-146): the
last-resort pick of the first remaining candidate, the single outbound
call, and the `-32603` / HTTP 502 error reply. When no selection exists and
the candidate list is `undefined`, reading `.length` throws out of
`execute` (modelled as `GatewayResponse.thrown`; the server wrapper turns
it into an HTTP 500 internal error). -/
def finishExecute (cfg : ProjectConfig) (proxySucceeds : UpstreamConfig → Bool)
    (responseTime now : Nat) (s : LoopState) : ExecOutcome :=
  match s.selected with
  | some u => proxyAndRespond cfg proxySucceeds responseTime now s.health u
  | none =>
    match s.availableUpstreams with
    | none =>
      { response := GatewayResponse.thrown, proxiedUpstreams := [],
        health := s.health }
    | some [] =>
      { response := GatewayResponse.rpcError (-32603) 502,
        proxiedUpstreams := [], health := s.health }
    | some (u :: _) => proxyAndRespond cfg proxySucceeds responseTime now s.health u

/-- Initial loop state for one request. -/
def initialLoopState (base : RoutingContext) : LoopState :=
  { availableUpstreams := base.availableUpstreams,
    health := base.upstreamHealth, selected := none, errored := false,
    executed := [] }

/-- DefaultRoutingStrategy.execute in full: run the pipeline loop, then the
post-loop dispatch. -/
def strategyExecute (base : RoutingContext) (ops : List StrategyOp)
    (proxySucceeds : UpstreamConfig → Bool) (responseTime now : Nat) :
    ExecOutcome :=
  finishExecute base.config proxySucceeds responseTime now
    (runOps base ops (initialLoopState base))

/-- UpstreamService.getAvailableUpstreams: the configured roster sorted
ascending by priority (JS `Array.prototype.sort` is stable). -/
def getAvailableUpstreams (cfg : ProjectConfig) : List UpstreamConfig :=
  cfg.upstreams.insertionSort (fun a b => a.priority ≤ b.priority)

/-- The seven operations in registration order (`server.ts` lines 94-102). -/
def pipelineOps : List StrategyOp :=
  [{ name := "RecoveryFilter", exec := errorRatesExecute },
   { name := "MethodRouting", exec := methodRoutingExecute },
   { name := "BlockBasedRouting", exec := blockBasedExecute },
   { name := "PriorityRouting", exec := priorityRoutingExecute },
   { name := "ArchiveFilter", exec := fallbackArchivalExecute },
   { name := "FinalSelector", exec := finalSelectorExecute },
   { name := "MetricsHandling", exec := metricsHandlingExecute }]

/-- Operation of the health tracker proper, as quantified over by the
circuit-breaker claims: recording a request outcome
(`UpstreamService.recordRequestResult`) or a recovery attempt
(`UpstreamService.markUpstreamRecovered`). -/
inductive HealthOp
  | record (success : Bool) (responseTime : Nat) (now : Nat)
  | recover (now : Nat)

/-- Time at which a health-tracker operation observes the clock. -/
def HealthOp.time : HealthOp → Nat
  | .record _ _ now => now
  | .recover now => now

/-- Effect of one health-tracker operation on one health record. -/
def healthStep (cfg : ProjectConfig) : HealthOp → UpstreamHealth → UpstreamHealth
  | .record success rt now, h => recordRequestResult cfg h success rt now
  | .recover now, h => markUpstreamRecovered cfg h now

/-- Sequential execution of health-tracker operations on one record. -/
def runHealthOps (cfg : ProjectConfig) (ops : List HealthOp)
    (h : UpstreamHealth) : UpstreamHealth :=
  ops.foldl (fun h op => healthStep cfg op h) h

/-- Windowed error rate that a potentially healthy-flipping operation
observes when applied to record `h`: a success recording has already
incremented `totalRequests` when it recomputes the rate, a recovery
attempt (via `calculateErrorRate`) short-circuits to `0` on a record with
no requests. -/
def observedRate (cfg : ProjectConfig) : HealthOp → UpstreamHealth → ℚ
  | .record _ _ now, h => windowedRate cfg now h.errors (h.totalRequests + 1)
  | .recover now, h =>
    if h.totalRequests = 0 then 0 else windowedRate cfg now h.errors h.totalRequests

/-- Every way the code base touches a health record's fields, for the
healthy-flag transition claim: the two tracker operations, the inline
recovery of `ErrorRatesOps.execute`, the pruning side effect of
`calculateErrorRate`, and the counter bumps of `MetricsHandlingOps`. -/
inductive HealthTouch
  | record (success : Bool) (responseTime : Nat) (now : Nat)
  | recover (now : Nat)
  | inlineRecover (now : Nat)
  | pruneRate (now : Nat)
  | metricsBump (method : String)

/-- Clock reading of a health-touching operation (`0` for the clock-free
metrics bump). -/
def HealthTouch.time : HealthTouch → Nat
  | .record _ _ now => now
  | .recover now => now
  | .inlineRecover now => now
  | .pruneRate now => now
  | .metricsBump _ => 0

/-- Effect of one health-touching operation on one health record. -/
def healthTouchStep (cfg : ProjectConfig) : HealthTouch → UpstreamHealth → UpstreamHealth
  | .record success rt now, h => recordRequestResult cfg h success rt now
  | .recover now, h => markUpstreamRecovered cfg h now
  | .inlineRecover now, h => errorRatesRecoverOne cfg now h
  | .pruneRate now, h => (calculateErrorRate cfg now h).2
  | .metricsBump m, h => metricsBumpHealth m h

/-- Windowed error rate observed by a health-touching operation (the inline
recovery of `ErrorRatesOps` divides by `max(totalRequests, 1)` without the
zero-requests shortcut; the rate is irrelevant for the operations that can
never flip the flag). -/
def touchObservedRate (cfg : ProjectConfig) : HealthTouch → UpstreamHealth → ℚ
  | .record _ _ now, h => windowedRate cfg now h.errors (h.totalRequests + 1)
  | .recover now, h =>
    if h.totalRequests = 0 then 0 else windowedRate cfg now h.errors h.totalRequests
  | .inlineRecover now, h => windowedRate cfg now h.errors h.totalRequests
  | .pruneRate _, _ => 0
  | .metricsBump _, _ => 0

/-- Fresh, healthy health record as created by
`UpstreamService.initializeHealth` (with the startup `Date.now()` taken as
`0`). -/
def freshHealth : UpstreamHealth :=
  { errors := [], totalRequests := 0, totalErrors := 0, consecutiveErrors := 0,
    lastError := none, lastSuccessfulRequest := 0, isHealthy := true,
    failoverUntil := 0, responseTime := 0 }

/-- Health record one failure short of the consecutive-failure limit of
`sampleProject`. -/
def nearTripRecord : UpstreamHealth :=
  { freshHealth with consecutiveErrors := 1 }

/-- Unhealthy health record: two failures at times 10 and 20 tripped the
breaker, `failoverUntil` is 120. -/
def unhealthyRecord : UpstreamHealth :=
  { errors := [10, 20], totalRequests := 2, totalErrors := 2,
    consecutiveErrors := 2, lastError := some 20, lastSuccessfulRequest := 0,
    isHealthy := false, failoverUntil := 120, responseTime := 0 }

/-- Sample full-node upstream used by the concrete evaluations. -/
def fullNode1 : UpstreamConfig :=
  { id := "full-1", type := NodeType.full, priority := 1 }

/-- Second sample full-node upstream. -/
def fullNode2 : UpstreamConfig :=
  { id := "full-2", type := NodeType.full, priority := 2 }

/-- Sample archive-node upstream. -/
def archNode1 : UpstreamConfig :=
  { id := "arch-1", type := NodeType.archive, priority := 3 }

/-- Sample project thresholds used by the concrete evaluations. -/
def sampleHealthConfig : HealthConfig :=
  { errorRateWindowMs := 1000, maxConsecutiveErrors := 2,
    failoverCooldownMs := 100 }

/-- Sample project configuration used by the concrete evaluations. -/
def sampleProject : ProjectConfig :=
  { upstreams := [fullNode1, fullNode2, archNode1],
    errorRateThreshold := mkRat 9 10, health := sampleHealthConfig }

/-- Request context with two healthy full nodes given to the pipeline in
candidate order `[full-2, full-1]` (priority 2 before priority 1), for a
method that is not historical. -/
def ctxTwoFull : RoutingContext :=
  { method := "eth_chainId", blockNumber := JVal.nullv, nodeStatus := none,
    availableUpstreams := some [fullNode2, fullNode1],
    upstreamHealth := [("full-1", freshHealth), ("full-2", freshHealth)],
    config := sampleProject, appConfig := { historicalMethods := [] } }

/-- Request context holding a single healthy archive node, for a method
that is not historical. -/
def ctxArchOnly : RoutingContext :=
  { method := "eth_chainId", blockNumber := JVal.nullv, nodeStatus := none,
    availableUpstreams := some [archNode1],
    upstreamHealth := [("arch-1", freshHealth)],
    config := sampleProject, appConfig := { historicalMethods := [] } }

/-- Recovery-stage context whose incoming candidate list is empty while the
configured roster is not. -/
def ctxEmptyCandidates : RoutingContext :=
  { method := "eth_chainId", blockNumber := JVal.nullv, nodeStatus := none,
    availableUpstreams := some [], upstreamHealth := [],
    config := sampleProject, appConfig := { historicalMethods := [] } }

/-- Context for the Emergency-Archive stage: a historical method with a
numeric block reference and a non-empty incoming candidate list holding a
full node and an archive node. -/
def ctxHistTwoKinds : RoutingContext :=
  { method := "eth_getBalance", blockNumber := JVal.num 5, nodeStatus := none,
    availableUpstreams := some [fullNode1, archNode1], upstreamHealth := [],
    config := sampleProject,
    appConfig := { historicalMethods := ["eth_getBalance"] } }

/-- Same request with an empty incoming candidate list. -/
def ctxHistEmpty : RoutingContext :=
  { ctxHistTwoKinds with availableUpstreams := some [] }

/-- Loop-exit state with a selected upstream, for the C7 witness. -/
def c7SelectedState : LoopState :=
  { availableUpstreams := some [], health := [], selected := some fullNode1,
    errored := false, executed := [] }

/-- Loop-exit state with no selection and an exhausted candidate list, for
the C7 witness. -/
def c7EmptyState : LoopState :=
  { availableUpstreams := some [], health := [], selected := none,
    errored := false, executed := [] }

/-- C1. The claim says that after a stage sets a selected upstream the
orchestrator still executes the terminal Metrics stage, which increments
the selected upstream's counters and narrows the candidate list to the
selection. In the code the loop breaks out as soon as a stage result
carries `selectedUpstream` (RoutingStrategy.ts line 73), before the checks
that would let the next operation run: running the registered tail
`[FinalSelector, MetricsHandling]` of the pipeline on two healthy
candidates executes only `FinalSelector`, leaves the selected upstream's
`totalRequests` at `0` with no per-method counter, and leaves the candidate
list un-narrowed — contradicting the claim and the code's own comments
(`// Continue to MetricsHandlingOps`, `always runs`). -/
theorem c1_metrics_skipped_after_selection :
    (runOps ctxTwoFull (pipelineOps.drop 5) (initialLoopState ctxTwoFull)).selected
        = some fullNode2
    ∧ (runOps ctxTwoFull (pipelineOps.drop 5) (initialLoopState ctxTwoFull)).executed
        = ["FinalSelector"]
    ∧ (alistGet (runOps ctxTwoFull (pipelineOps.drop 5)
          (initialLoopState ctxTwoFull)).health "full-2").map
            (fun h => (h.totalRequests, h.methodStats)) = some (0, none)
    ∧ (runOps ctxTwoFull (pipelineOps.drop 5)
          (initialLoopState ctxTwoFull)).availableUpstreams
        = some [fullNode2, fullNode1] := by
  exact ⟨rfl, rfl, rfl, rfl⟩

/-- C3. The claim says the Health/Priority stage returns exactly the
healthy candidates sorted ascending by priority and halts iff that list is
empty. The implementation (`PriorityRoutingOps.execute`) is a stale
selector: on two healthy full-node candidates listed as
`[priority 2, priority 1]` it returns no `filteredUpstreams` list at all
(`undefined`), reports the first candidate — not the best-priority one —
in the legacy `upstream` field the orchestrator never reads, and signals
stop even though the claim's predicted output `[full-1, full-2]` is
non-empty. -/
theorem c3_priority_stage_divergence :
    priorityRoutingExecute ctxTwoFull =
      some ({ filteredUpstreams := none, selectedUpstream := none,
              upstream := some fullNode2, shouldContinue := false },
        ctxTwoFull.upstreamHealth)
    ∧ (none : Option (List UpstreamConfig)) ≠ some [fullNode1, fullNode2] := by
  exact ⟨rfl, fun h => Option.noConfusion h⟩

/-- C4. The claim says that after every pipeline stage the candidate list
is a subset of the roster with non-increasing cardinality (Recovery and
Emergency-Archive excepted on empty input). Running the full registered
pipeline on a single healthy archive candidate, the Health/Priority stage
returns no candidate list, the orchestrator assigns that `undefined` as
the new candidate list (RoutingStrategy.ts line 77), and from that stage
on the candidate list is no list at all — in particular not a subset of
the roster; the eventual `.length` access throws out of `execute`. -/
theorem c4_candidate_list_undefined_after_priority :
    (runOps ctxArchOnly pipelineOps (initialLoopState ctxArchOnly)).availableUpstreams
        = none
    ∧ (runOps ctxArchOnly pipelineOps (initialLoopState ctxArchOnly)).errored = true
    ∧ (strategyExecute ctxArchOnly pipelineOps (fun _ => true) 0 0).response
        = GatewayResponse.thrown := by
  exact ⟨rfl, rfl, rfl⟩

/-- C5. The claim (and the code's own `Last resort: include all upstreams`
comment) says the Recovery stage falls back to the full roster when its
incoming candidate list is empty and never halts. In
`ErrorRatesOps.execute` the `allUpstreams` last resort is a spread copy of
the incoming `availableUpstreams` — not the roster — so with an empty
incoming list and a non-empty configured roster the stage returns the
empty copy and signals stop. -/
theorem c5_recovery_empty_input_halts :
    errorRatesExecute ctxEmptyCandidates =
      some ({ filteredUpstreams := some [], selectedUpstream := none,
              upstream := none, shouldContinue := false }, [])
    ∧ ctxEmptyCandidates.config.upstreams ≠ [] := by
  exact ⟨rfl, by decide⟩

/-- Helper: a `JVal` is a number exactly when it is some `JVal.num n`. -/
theorem JVal.isNum_iff (v : JVal) : v.isNum = true ↔ ∃ n, v = JVal.num n := by
  cases v <;> simp [JVal.isNum]

/-- C6 counterexample. The claim says the Emergency-Archive stage changes
the candidate list only when the incoming list is empty, in which case it
pulls archive descriptors from the full roster. In the code
(`FallbackArchivalRoutingOps.execute`): on the non-empty incoming list
`[full-1, arch-1]` for a historical method with a numeric block it narrows
to `[arch-1]` (a change), and on an empty incoming list it returns the
empty list and halts even though the roster contains an archive node —
it never reads the roster at all. -/
theorem c6_counterexample :
    fallbackArchivalExecute ctxHistTwoKinds =
      some ({ filteredUpstreams := some [archNode1], selectedUpstream := none,
              upstream := none, shouldContinue := true }, [])
    ∧ some [archNode1] ≠ some [fullNode1, archNode1]
    ∧ fallbackArchivalExecute ctxHistEmpty =
        some ({ filteredUpstreams := some [], selectedUpstream := none,
                upstream := none, shouldContinue := false }, [])
    ∧ ctxHistEmpty.config.upstreams.filter (fun u => u.type == NodeType.archive)
        ≠ [] := by
  refine ⟨rfl, by decide, rfl, by decide⟩

/-- C6 as amended: the Emergency-Archive stage never consults the roster;
when the request method is historical, the block reference is numeric, and
the incoming candidate list contains archive nodes, it narrows to exactly
those archive candidates (whether or not the incoming list was "empty"
matters only through that filter); in every other case it passes the
incoming list through unchanged and halts exactly when that list is
empty. -/
theorem c6_archive_stage_characterization (ctx : RoutingContext)
    (l : List UpstreamConfig) (h : ctx.availableUpstreams = some l) :
    (ctx.method ∈ ctx.appConfig.historicalMethods →
      (∃ n, ctx.blockNumber = JVal.num n) →
      l.filter (fun u => u.type == NodeType.archive) ≠ [] →
      fallbackArchivalExecute ctx =
        some ({ filteredUpstreams :=
                  some (l.filter (fun u => u.type == NodeType.archive)),
                shouldContinue := true }, ctx.upstreamHealth))
    ∧ (¬(ctx.method ∈ ctx.appConfig.historicalMethods ∧
          (∃ n, ctx.blockNumber = JVal.num n) ∧
          l.filter (fun u => u.type == NodeType.archive) ≠ []) →
        fallbackArchivalExecute ctx =
          some ({ filteredUpstreams := some l,
                  shouldContinue := decide (0 < l.length) },
            ctx.upstreamHealth)) := by
  constructor
  · intro hmem hnum hne
    have h1 : decide (ctx.method ∈ ctx.appConfig.historicalMethods) = true := by
      simpa using hmem
    have h2 : ctx.blockNumber.isNum = true := (JVal.isNum_iff _).2 hnum
    have h3 : decide (0 < (l.filter (fun u => u.type == NodeType.archive)).length)
        = true := by
      simpa [List.length_pos] using hne
    unfold fallbackArchivalExecute
    rw [h]
    simp only [h1, h2, h3, Bool.and_self, if_pos]
  · intro hcond
    have hfalse : (decide (ctx.method ∈ ctx.appConfig.historicalMethods) &&
        (ctx.blockNumber.isNum &&
          decide (0 < (l.filter (fun u => u.type == NodeType.archive)).length)))
          = false := by
      rcases Bool.eq_false_or_eq_true (decide (ctx.method ∈ ctx.appConfig.historicalMethods) &&
        (ctx.blockNumber.isNum &&
          decide (0 < (l.filter (fun u => u.type == NodeType.archive)).length))) with hb | hb
      · exfalso
        apply hcond
        simp only [Bool.and_eq_true, decide_eq_true_eq] at hb
        exact ⟨hb.1, (JVal.isNum_iff _).1 hb.2.1, by
          simpa [List.length_pos] using hb.2.2⟩
      · exact hb
    unfold fallbackArchivalExecute
    rw [h]
    simp only [Bool.and_assoc] at hfalse ⊢
    simp only [hfalse, if_neg, Bool.false_eq_true, reduceIte]

/-- Closed instance of the amended C6 theorem at the two-kind historical
context and at a pass-through context, with every hypothesis discharged on
the concrete input. -/
theorem c6_witness :
    (fallbackArchivalExecute ctxHistTwoKinds =
      some ({ filteredUpstreams :=
                some ([fullNode1, archNode1].filter
                  (fun u => u.type == NodeType.archive)),
              shouldContinue := true }, ctxHistTwoKinds.upstreamHealth))
    ∧ (fallbackArchivalExecute ctxTwoFull =
        some ({ filteredUpstreams := some [fullNode2, fullNode1],
                shouldContinue := decide (0 < [fullNode2, fullNode1].length) },
          ctxTwoFull.upstreamHealth)) := by
  constructor
  · exact (c6_archive_stage_characterization ctxHistTwoKinds [fullNode1, archNode1]
      rfl).1 (by decide) ⟨5, rfl⟩ (by decide)
  · exact (c6_archive_stage_characterization ctxTwoFull [fullNode2, fullNode1]
      rfl).2 (by
        rintro ⟨hmem, -, -⟩
        simp [ctxTwoFull] at hmem)

/-- C8: method-compatibility matching. A pattern ending in `*` ignores a
method exactly when the method starts with the pattern minus its final
star; any other pattern requires exact equality; and
`MethodRoutingOps.execute` keeps exactly the candidates none of whose
patterns match the request's method, signalling stop exactly when no
candidate survives. -/
theorem c8_method_matching :
    (∀ (m p : String), p.data.getLast? = some '*' →
      (isMethodIgnored m [p] = true ↔ ∃ r, m.data = p.data.dropLast ++ r))
    ∧ (∀ (m p : String), p.data.getLast? ≠ some '*' →
      (isMethodIgnored m [p] = true ↔ m = p))
    ∧ (∀ (ctx : RoutingContext) (l : List UpstreamConfig),
        ctx.availableUpstreams = some l →
        ∃ l2, methodRoutingExecute ctx =
            some ({ filteredUpstreams := some l2,
                    shouldContinue := decide (0 < l2.length) },
              ctx.upstreamHealth)
          ∧ (∀ u, u ∈ l2 ↔ u ∈ l ∧
              ∀ ps, u.ignoredMethods = some ps →
                isMethodIgnored ctx.method ps = false)
          ∧ (decide (0 < l2.length) = false ↔ l2 = [])) := by
  refine ⟨?_, ?_, ?_⟩
  · intro m p hstar
    simp only [isMethodIgnored, List.any_cons, List.any_nil, Bool.or_false,
      hstar, if_pos]
    rw [List.isPrefixOf_iff_prefix]
    constructor
    · rintro ⟨r, hr⟩; exact ⟨r, hr.symm⟩
    · rintro ⟨r, hr⟩; exact ⟨r, hr.symm⟩
  · intro m p hstar
    simp only [isMethodIgnored, List.any_cons, List.any_nil, Bool.or_false,
      hstar, if_neg]
    exact beq_iff_eq
  · intro ctx l h
    refine ⟨l.filter (fun u =>
      match u.ignoredMethods with
      | none => true
      | some ign => !isMethodIgnored ctx.method ign), ?_, ?_, ?_⟩
    · simp only [methodRoutingExecute, h]
    · intro u
      rw [List.mem_filter]
      constructor
      · rintro ⟨hu, hf⟩
        refine ⟨hu, ?_⟩
        intro ps hps
        rw [hps] at hf
        simpa using hf
      · rintro ⟨hu, hf⟩
        refine ⟨hu, ?_⟩
        cases hps : u.ignoredMethods with
        | none => simp
        | some ign => simp [hf ign hps]
    · simp [List.length_pos]

/-- Closed instance of C8: the wildcard pattern `debug_*` matched against
`debug_traceTransaction`, the exact pattern `eth_call` matched against
itself, and the execute characterization at the two-full-node context, with
every hypothesis discharged on the concrete input. -/
theorem c8_witness :
    ((isMethodIgnored "debug_traceTransaction" ["debug_*"] = true ↔
        ∃ r, "debug_traceTransaction".data = "debug_*".data.dropLast ++ r)
      ∧ (isMethodIgnored "eth_call" ["eth_call"] = true ↔
          ("eth_call" : String) = "eth_call"))
    ∧ ∃ l2, methodRoutingExecute ctxTwoFull =
          some ({ filteredUpstreams := some l2,
                  shouldContinue := decide (0 < l2.length) },
            ctxTwoFull.upstreamHealth)
        ∧ (∀ u, u ∈ l2 ↔ u ∈ [fullNode2, fullNode1] ∧
            ∀ ps, u.ignoredMethods = some ps →
              isMethodIgnored ctxTwoFull.method ps = false)
        ∧ (decide (0 < l2.length) = false ↔ l2 = []) := by
  refine ⟨⟨?_, ?_⟩, ?_⟩
  · exact c8_method_matching.1 "debug_traceTransaction" "debug_*" (by decide)
  · exact c8_method_matching.2.1 "eth_call" "eth_call" (by decide)
  · exact c8_method_matching.2.2 ctxTwoFull [fullNode2, fullNode1] rfl

/-- Helper: strict string equality on a `JVal` holds exactly for the equal
string value. -/
theorem JVal.eqStr_iff (v : JVal) (t : String) :
    v.eqStr t = true ↔ v = JVal.str t := by
  cases v <;> simp [JVal.eqStr]

/-- C9 counterexample. The claim says that for allowlisted log-style
methods the extractor normalizes a `latest` block parameter (the filter's
`fromBlock`) to the LATEST sentinel. With `eth_getLogs` allowlisted and
`fromBlock: "latest"`, `BlockNumberExtractor.extract` skips the
`fromBlock` branch entirely and returns `null` (no block reference), not
the `latest` sentinel. -/
theorem c9_counterexample :
    extractBlockNumber ["eth_getLogs"] "eth_getLogs"
        (some [JVal.obj [("fromBlock", JVal.str "latest")]]) = JVal.nullv
    ∧ JVal.nullv ≠ JVal.str "latest" := by
  exact ⟨rfl, fun h => JVal.noConfusion h⟩

/-- C9 as amended: the extractor is pure; methods outside the allowlist
(or calls without an array `params`) yield no block reference; for
allowlisted methods with a fixed parameter index, string parameters are
normalized (`latest`/`pending` to the LATEST sentinel, `earliest` to
height `0`, other strings base-16 parsed with unparseable ones yielding no
block reference) while non-string parameters are returned unchanged; for
`eth_getLogs`, a first parameter that is not a filter object yields no
block reference, and with a filter object a `latest`, `pending` or falsy
`fromBlock` (missing, `null`, zero, empty string) yields no block
reference while every other truthy `fromBlock` is converted with
JavaScript `ToString` and parsed base-16, an unparseable result yielding
no block reference; and allowlisted methods with neither a table entry
nor the `eth_getLogs` name yield no block reference. -/
theorem c9_extractor_characterization :
    (∀ hm m ps, m ∉ hm → extractBlockNumber hm m ps = JVal.nullv)
    ∧ (∀ hm m, extractBlockNumber hm m none = JVal.nullv)
    ∧ (∀ hm m idx ps, m ∈ hm → alistGet blockNumberMethodsTable m = some idx →
        ((ps.getD idx JVal.undef = JVal.str "latest" ∨
            ps.getD idx JVal.undef = JVal.str "pending") →
          extractBlockNumber hm m (some ps) = JVal.str "latest")
        ∧ (ps.getD idx JVal.undef = JVal.str "earliest" →
            extractBlockNumber hm m (some ps) = JVal.num 0)
        ∧ (∀ s, ps.getD idx JVal.undef = JVal.str s → s ≠ "latest" →
            s ≠ "pending" → s ≠ "earliest" →
            extractBlockNumber hm m (some ps) =
              (match jsParseInt16 s with
               | none => JVal.nullv
               | some n => JVal.num n))
        ∧ (∀ v, ps.getD idx JVal.undef = v → (∀ s, v ≠ JVal.str s) →
            extractBlockNumber hm m (some ps) = v))
    ∧ (∀ hm ps fields, "eth_getLogs" ∈ hm →
        ps.getD 0 JVal.undef = JVal.obj fields →
        (((alistGet fields "fromBlock").getD JVal.undef = JVal.str "latest" ∨
            (alistGet fields "fromBlock").getD JVal.undef = JVal.str "pending") →
          extractBlockNumber hm "eth_getLogs" (some ps) = JVal.nullv)
        ∧ (∀ v, (alistGet fields "fromBlock").getD JVal.undef = v →
            v.truthy = false →
            extractBlockNumber hm "eth_getLogs" (some ps) = JVal.nullv)
        ∧ (∀ v, (alistGet fields "fromBlock").getD JVal.undef = v →
            v.truthy = true → v ≠ JVal.str "latest" → v ≠ JVal.str "pending" →
            extractBlockNumber hm "eth_getLogs" (some ps) =
              (match jsParseInt16 (jsToString v) with
               | none => JVal.nullv
               | some n => JVal.num n)))
    ∧ (∀ hm ps, "eth_getLogs" ∈ hm →
        (∀ fields, ps.getD 0 JVal.undef ≠ JVal.obj fields) →
        extractBlockNumber hm "eth_getLogs" (some ps) = JVal.nullv)
    ∧ (∀ hm m ps, m ∈ hm → alistGet blockNumberMethodsTable m = none →
        m ≠ "eth_getLogs" → extractBlockNumber hm m (some ps) = JVal.nullv) := by
  refine ⟨?_, ?_, ?_, ?_, ?_, ?_⟩
  · intro hm m ps hmem
    cases ps with
    | none => rfl
    | some l => simp [extractBlockNumber, hmem]
  · intro hm m
    rfl
  · intro hm m idx ps hmem htab
    refine ⟨?_, ?_, ?_, ?_⟩
    · intro hlp
      simp only [List.getD_eq_getElem?_getD] at hlp
      simp only [extractBlockNumber, hmem, not_true_eq_false, if_false, htab]
      rcases hlp with hv | hv <;>
        simp [hv, JVal.eqStr]
    · intro hv
      simp only [List.getD_eq_getElem?_getD] at hv
      simp only [extractBlockNumber, hmem, not_true_eq_false, if_false, htab]
      simp [hv, JVal.eqStr]
    · intro s hv hs1 hs2 hs3
      simp only [List.getD_eq_getElem?_getD] at hv
      simp only [extractBlockNumber, hmem, not_true_eq_false, if_false, htab]
      simp [hv, JVal.eqStr, hs1, hs2, hs3]
    · intro v hv hns
      simp only [extractBlockNumber, hmem, not_true_eq_false, if_false, htab]
      rw [hv]
      cases v with
      | str s => exact absurd rfl (hns s)
      | num n => rfl
      | boolv b => rfl
      | nullv => rfl
      | undef => rfl
      | obj fs => rfl
      | arr xs => rfl
  · intro hm ps fields hmem hobj
    simp only [List.getD_eq_getElem?_getD] at hobj
    have htab : alistGet blockNumberMethodsTable "eth_getLogs" = none := by rfl
    refine ⟨?_, ?_, ?_⟩
    · intro hlp
      simp only [extractBlockNumber, hmem, not_true_eq_false, if_false, htab,
        List.getD_eq_getElem?_getD, hobj]
      rcases hlp with hv | hv <;> simp [hv, JVal.eqStr, JVal.truthy]
    · intro v hv htr
      simp only [extractBlockNumber, hmem, not_true_eq_false, if_false, htab,
        List.getD_eq_getElem?_getD, hobj]
      simp [hv, htr]
    · intro v hv htr hv1 hv2
      have h1 : v.eqStr "latest" = false := by
        cases hb : v.eqStr "latest"
        · rfl
        · exact absurd ((JVal.eqStr_iff v "latest").1 hb) hv1
      have h2 : v.eqStr "pending" = false := by
        cases hb : v.eqStr "pending"
        · rfl
        · exact absurd ((JVal.eqStr_iff v "pending").1 hb) hv2
      simp only [extractBlockNumber, hmem, not_true_eq_false, if_false, htab,
        List.getD_eq_getElem?_getD, hobj]
      simp [hv, htr, h1, h2, jsParseInt16OfJVal]
  · intro hm ps hmem hnonobj
    simp only [List.getD_eq_getElem?_getD] at hnonobj
    have htab : alistGet blockNumberMethodsTable "eth_getLogs" = none := by rfl
    simp only [extractBlockNumber, hmem, not_true_eq_false, if_false, htab,
      List.getD_eq_getElem?_getD]
    cases hv : ps[0]?.getD JVal.undef with
    | obj fields => exact absurd hv (hnonobj fields)
    | str s => rfl
    | num n => rfl
    | boolv b => rfl
    | nullv => rfl
    | undef => rfl
    | arr xs => rfl
  · intro hm m ps hmem htab hne
    simp [extractBlockNumber, hmem, htab, hne]

/-- Closed instance of the amended C9 theorem: a non-allowlisted method,
the table-method parameter shapes, and `eth_getLogs` with a `pending`, a
missing, a falsy numeric, a hexadecimal string, an array-valued and a
non-object filter, each hypothesis discharged on the concrete input. -/
theorem c9_witness :
    extractBlockNumber ["eth_getBalance"] "eth_chainId" (some []) = JVal.nullv
    ∧ extractBlockNumber ["eth_getBalance"] "eth_getBalance"
        (some [JVal.str "0xabc", JVal.str "pending"]) = JVal.str "latest"
    ∧ extractBlockNumber ["eth_getBalance"] "eth_getBalance"
        (some [JVal.str "0xabc", JVal.str "earliest"]) = JVal.num 0
    ∧ extractBlockNumber ["eth_getBalance"] "eth_getBalance"
        (some [JVal.str "0xabc", JVal.str "0x10"]) =
        (match jsParseInt16 "0x10" with
         | none => JVal.nullv
         | some n => JVal.num n)
    ∧ extractBlockNumber ["eth_getBalance"] "eth_getBalance"
        (some [JVal.str "0xabc", JVal.num 7]) = JVal.num 7
    ∧ extractBlockNumber ["eth_getLogs"] "eth_getLogs"
        (some [JVal.obj [("fromBlock", JVal.str "pending")]]) = JVal.nullv
    ∧ extractBlockNumber ["eth_getLogs"] "eth_getLogs"
        (some [JVal.obj [("toBlock", JVal.str "0x5")]]) = JVal.nullv
    ∧ extractBlockNumber ["eth_getLogs"] "eth_getLogs"
        (some [JVal.obj [("fromBlock", JVal.num 0)]]) = JVal.nullv
    ∧ extractBlockNumber ["eth_getLogs"] "eth_getLogs"
        (some [JVal.obj [("fromBlock", JVal.str "0x1a")]]) =
        (match jsParseInt16 (jsToString (JVal.str "0x1a")) with
         | none => JVal.nullv
         | some n => JVal.num n)
    ∧ extractBlockNumber ["eth_getLogs"] "eth_getLogs"
        (some [JVal.obj [("fromBlock", JVal.arr [JVal.str "0x5"])]]) =
        (match jsParseInt16 (jsToString (JVal.arr [JVal.str "0x5"])) with
         | none => JVal.nullv
         | some n => JVal.num n)
    ∧ extractBlockNumber ["eth_getLogs"] "eth_getLogs"
        (some [JVal.str "notAFilter"]) = JVal.nullv
    ∧ extractBlockNumber ["eth_call"] "eth_call" (some [JVal.nullv]) =
        JVal.undef := by
  refine ⟨?_, ?_, ?_, ?_, ?_, ?_, ?_, ?_, ?_, ?_, ?_, ?_⟩
  · exact c9_extractor_characterization.1 ["eth_getBalance"] "eth_chainId"
      (some []) (by simp)
  · exact (c9_extractor_characterization.2.2.1 ["eth_getBalance"]
      "eth_getBalance" 1 [JVal.str "0xabc", JVal.str "pending"]
      (by simp) rfl).1 (Or.inr rfl)
  · exact (c9_extractor_characterization.2.2.1 ["eth_getBalance"]
      "eth_getBalance" 1 [JVal.str "0xabc", JVal.str "earliest"]
      (by simp) rfl).2.1 rfl
  · exact (c9_extractor_characterization.2.2.1 ["eth_getBalance"]
      "eth_getBalance" 1 [JVal.str "0xabc", JVal.str "0x10"]
      (by simp) rfl).2.2.1 "0x10" rfl (by decide) (by decide) (by decide)
  · exact (c9_extractor_characterization.2.2.1 ["eth_getBalance"]
      "eth_getBalance" 1 [JVal.str "0xabc", JVal.num 7]
      (by simp) rfl).2.2.2 (JVal.num 7) rfl
      (fun s h => JVal.noConfusion h)
  · exact (c9_extractor_characterization.2.2.2.1 ["eth_getLogs"]
      [JVal.obj [("fromBlock", JVal.str "pending")]]
      [("fromBlock", JVal.str "pending")] (by simp) rfl).1 (Or.inr rfl)
  · exact (c9_extractor_characterization.2.2.2.1 ["eth_getLogs"]
      [JVal.obj [("toBlock", JVal.str "0x5")]]
      [("toBlock", JVal.str "0x5")] (by simp) rfl).2.1 JVal.undef rfl rfl
  · exact (c9_extractor_characterization.2.2.2.1 ["eth_getLogs"]
      [JVal.obj [("fromBlock", JVal.num 0)]]
      [("fromBlock", JVal.num 0)] (by simp) rfl).2.1 (JVal.num 0) rfl
      (by decide)
  · exact (c9_extractor_characterization.2.2.2.1 ["eth_getLogs"]
      [JVal.obj [("fromBlock", JVal.str "0x1a")]]
      [("fromBlock", JVal.str "0x1a")] (by simp) rfl).2.2
      (JVal.str "0x1a") rfl (by decide) (by simp) (by simp)
  · exact (c9_extractor_characterization.2.2.2.1 ["eth_getLogs"]
      [JVal.obj [("fromBlock", JVal.arr [JVal.str "0x5"])]]
      [("fromBlock", JVal.arr [JVal.str "0x5"])] (by simp) rfl).2.2
      (JVal.arr [JVal.str "0x5"]) rfl rfl
      (fun h => JVal.noConfusion h) (fun h => JVal.noConfusion h)
  · exact c9_extractor_characterization.2.2.2.2.1 ["eth_getLogs"]
      [JVal.str "notAFilter"] (by simp)
      (fun fields h => JVal.noConfusion h)
  · exact (c9_extractor_characterization.2.2.1 ["eth_call"] "eth_call" 1
      [JVal.nullv] (by simp) rfl).2.2.2 JVal.undef rfl
      (fun s h => JVal.noConfusion h)

/-- C7: single-shot dispatch. For any operation list and any request, the
strategy issues at most one outbound proxy call; when the loop ends with a
selected upstream whose call fails, the reply is the single gateway-level
`-32603` / HTTP 502 error after exactly that one call (no retry of another
upstream); and when no candidate survived (empty list, no selection) the
same error is returned with no outbound call at all. -/
theorem c7_single_shot_dispatch :
    (∀ (base : RoutingContext) (ops : List StrategyOp)
        (proxySucceeds : UpstreamConfig → Bool) (rt now : Nat),
        (strategyExecute base ops proxySucceeds rt now).proxiedUpstreams.length ≤ 1)
    ∧ (∀ (cfg : ProjectConfig) (proxySucceeds : UpstreamConfig → Bool)
        (rt now : Nat) (s : LoopState) (u : UpstreamConfig),
        s.selected = some u → proxySucceeds u = false →
        (finishExecute cfg proxySucceeds rt now s).response =
            GatewayResponse.rpcError (-32603) 502
          ∧ (finishExecute cfg proxySucceeds rt now s).proxiedUpstreams = [u.id])
    ∧ (∀ (cfg : ProjectConfig) (proxySucceeds : UpstreamConfig → Bool)
        (rt now : Nat) (s : LoopState),
        s.selected = none → s.availableUpstreams = some [] →
        (finishExecute cfg proxySucceeds rt now s).response =
            GatewayResponse.rpcError (-32603) 502
          ∧ (finishExecute cfg proxySucceeds rt now s).proxiedUpstreams = []) := by
  have hfin : ∀ (cfg : ProjectConfig) (proxySucceeds : UpstreamConfig → Bool)
      (rt now : Nat) (s : LoopState),
      (finishExecute cfg proxySucceeds rt now s).proxiedUpstreams.length ≤ 1 := by
    intro cfg p rt now s
    unfold finishExecute proxyAndRespond
    cases s.selected with
    | some u =>
      cases hp : p u <;> simp [hp]
    | none =>
      cases s.availableUpstreams with
      | none => simp
      | some l =>
        cases l with
        | nil => simp
        | cons u rest => cases hp : p u <;> simp [hp]
  refine ⟨?_, ?_, ?_⟩
  · intro base ops p rt now
    unfold strategyExecute
    exact hfin base.config p rt now _
  · intro cfg p rt now s u hsel hp
    unfold finishExecute proxyAndRespond
    rw [hsel]
    simp [hp]
  · intro cfg p rt now s hsel havail
    unfold finishExecute
    rw [hsel, havail]
    simp

/-- Closed instance of C7: the at-most-one-call bound on a full pipeline
run, the failed-call error path, and the no-candidate error path, each
hypothesis discharged on the concrete input. -/
theorem c7_witness :
    (strategyExecute ctxTwoFull pipelineOps (fun _ => false) 0 0).proxiedUpstreams.length ≤ 1
    ∧ ((finishExecute sampleProject (fun _ => false) 0 0 c7SelectedState).response =
          GatewayResponse.rpcError (-32603) 502
        ∧ (finishExecute sampleProject (fun _ => false) 0 0
            c7SelectedState).proxiedUpstreams = ["full-1"])
    ∧ ((finishExecute sampleProject (fun _ => false) 0 0 c7EmptyState).response =
          GatewayResponse.rpcError (-32603) 502
        ∧ (finishExecute sampleProject (fun _ => false) 0 0
            c7EmptyState).proxiedUpstreams = []) := by
  refine ⟨?_, ?_, ?_⟩
  · exact c7_single_shot_dispatch.1 ctxTwoFull pipelineOps (fun _ => false) 0 0
  · exact c7_single_shot_dispatch.2.1 sampleProject (fun _ => false) 0 0
      c7SelectedState fullNode1 rfl rfl
  · exact c7_single_shot_dispatch.2.2 sampleProject (fun _ => false) 0 0
      c7EmptyState rfl rfl

theorem calculateErrorRate_fst (cfg : ProjectConfig) (now : Nat)
    (h : UpstreamHealth) :
    (calculateErrorRate cfg now h).1 =
      (if h.totalRequests = 0 then (0 : ℚ)
       else windowedRate cfg now h.errors h.totalRequests) := by
  unfold calculateErrorRate
  split_ifs <;> rfl

theorem calculateErrorRate_isHealthy (cfg : ProjectConfig) (now : Nat)
    (h : UpstreamHealth) :
    (calculateErrorRate cfg now h).2.isHealthy = h.isHealthy := by
  unfold calculateErrorRate
  split_ifs <;> rfl

theorem calculateErrorRate_failoverUntil (cfg : ProjectConfig) (now : Nat)
    (h : UpstreamHealth) :
    (calculateErrorRate cfg now h).2.failoverUntil = h.failoverUntil := by
  unfold calculateErrorRate
  split_ifs <;> rfl

theorem recordRequestResult_success_isHealthy (cfg : ProjectConfig)
    (h : UpstreamHealth) (rt now : Nat) :
    (recordRequestResult cfg h true rt now).isHealthy = true ↔
      (h.isHealthy = true ∨ (h.failoverUntil < now ∧
        windowedRate cfg now h.errors (h.totalRequests + 1) < cfg.errorRateThreshold)) := by
  unfold recordRequestResult
  simp only [if_true, true_and]
  split_ifs with h1 h2
  · simp_all [calculateErrorRate, windowedRate, recentErrors]
  · simp_all [calculateErrorRate, windowedRate, recentErrors]
  · simp_all [calculateErrorRate, windowedRate, recentErrors]

theorem recordRequestResult_false_mono (cfg : ProjectConfig)
    (h : UpstreamHealth) (rt now : Nat) :
    (recordRequestResult cfg h false rt now).isHealthy = true →
      h.isHealthy = true := by
  unfold recordRequestResult
  simp only [Bool.false_eq_true, if_false, false_and]
  split_ifs with h1
  · simp_all [calculateErrorRate]
  · intro hres
    rw [calculateErrorRate_isHealthy] at hres
    simpa using hres

theorem recordRequestResult_false_trip (cfg : ProjectConfig)
    (h : UpstreamHealth) (rt now : Nat)
    (hc : cfg.errorRateThreshold <
        windowedRate cfg now (h.errors ++ [now]) (h.totalRequests + 1)
      ∨ cfg.health.maxConsecutiveErrors ≤ h.consecutiveErrors + 1) :
    (recordRequestResult cfg h false rt now).isHealthy = false ∧
      (recordRequestResult cfg h false rt now).failoverUntil =
        now + cfg.health.failoverCooldownMs := by
  unfold recordRequestResult
  simp only [Bool.false_eq_true, if_false, false_and]
  rw [if_pos]
  · simp
  · simpa [calculateErrorRate, windowedRate, recentErrors] using hc

theorem markUpstreamRecovered_mono (cfg : ProjectConfig) (h : UpstreamHealth)
    (now : Nat) (hh : h.isHealthy = true) :
    (markUpstreamRecovered cfg h now).isHealthy = true := by
  unfold markUpstreamRecovered
  rw [if_neg]
  · exact hh
  · simp [hh]

theorem markUpstreamRecovered_flip (cfg : ProjectConfig) (h : UpstreamHealth)
    (now : Nat) (hh : h.isHealthy = false)
    (hres : (markUpstreamRecovered cfg h now).isHealthy = true) :
    h.failoverUntil < now ∧
      (if h.totalRequests = 0 then (0 : ℚ)
       else windowedRate cfg now h.errors h.totalRequests) <
        cfg.errorRateThreshold := by
  unfold markUpstreamRecovered at hres
  by_cases h1 : h.isHealthy = false ∧ h.failoverUntil < now
  · rw [if_pos h1] at hres
    by_cases h2 : (calculateErrorRate cfg now h).1 < cfg.errorRateThreshold
    · refine ⟨h1.2, ?_⟩
      rw [← calculateErrorRate_fst cfg now h]
      exact h2
    · rw [if_neg h2, calculateErrorRate_isHealthy] at hres
      exact absurd hres (by simp [hh])
  · rw [if_neg h1] at hres
    exact absurd hres (by simp [hh])

theorem errorRatesRecoverOne_mono (cfg : ProjectConfig) (now : Nat)
    (h : UpstreamHealth) (hh : h.isHealthy = true) :
    (errorRatesRecoverOne cfg now h).isHealthy = true := by
  unfold errorRatesRecoverOne errorRatesRecovers
  split_ifs with h1 <;> simp_all

theorem errorRatesRecoverOne_flip (cfg : ProjectConfig) (now : Nat)
    (h : UpstreamHealth) (hh : h.isHealthy = false)
    (hres : (errorRatesRecoverOne cfg now h).isHealthy = true) :
    h.failoverUntil < now ∧
      windowedRate cfg now h.errors h.totalRequests < cfg.errorRateThreshold := by
  unfold errorRatesRecoverOne errorRatesRecovers at hres
  split_ifs at hres with h1
  · have h2 := of_decide_eq_true h1
    exact ⟨h2.2.1, h2.2.2⟩
  · exact absurd hres (by simp [hh])

theorem metricsBumpHealth_isHealthy (m : String) (h : UpstreamHealth) :
    (metricsBumpHealth m h).isHealthy = h.isHealthy := rfl



theorem healthStep_flip (cfg : ProjectConfig) (op : HealthOp)
    (h : UpstreamHealth) (hh : h.isHealthy = false)
    (hres : (healthStep cfg op h).isHealthy = true) :
    h.failoverUntil < op.time ∧
      observedRate cfg op h < cfg.errorRateThreshold := by
  cases op with
  | record success rt now =>
    cases success
    · exact absurd (recordRequestResult_false_mono cfg h rt now hres)
        (by simp [hh])
    · have h1 := (recordRequestResult_success_isHealthy cfg h rt now).1 hres
      rcases h1 with h1 | h1
      · exact absurd h1 (by simp [hh])
      · exact ⟨h1.1, h1.2⟩
  | recover now =>
    have h1 := markUpstreamRecovered_flip cfg h now hh hres
    exact ⟨h1.1, h1.2⟩

theorem runHealthOps_flip (cfg : ProjectConfig) :
    ∀ (ops : List HealthOp) (h : UpstreamHealth),
    h.isHealthy = false → (runHealthOps cfg ops h).isHealthy = true →
    ∃ pre op post, ops = pre ++ op :: post
      ∧ (runHealthOps cfg pre h).isHealthy = false
      ∧ (runHealthOps cfg pre h).failoverUntil < op.time
      ∧ observedRate cfg op (runHealthOps cfg pre h) < cfg.errorRateThreshold := by
  intro ops
  induction ops with
  | nil =>
    intro h hh hres
    exact absurd hres (by simp [runHealthOps, List.foldl, hh])
  | cons op rest ih =>
    intro h hh hres
    by_cases hmid : (healthStep cfg op h).isHealthy = true
    · exact ⟨[], op, rest, rfl, hh, (healthStep_flip cfg op h hh hmid).1,
        (healthStep_flip cfg op h hh hmid).2⟩
    · have hmid2 : (healthStep cfg op h).isHealthy = false := by
        cases hb : (healthStep cfg op h).isHealthy
        · rfl
        · exact absurd hb hmid
      have hres2 : (runHealthOps cfg rest (healthStep cfg op h)).isHealthy = true := hres
      obtain ⟨pre, op2, post, heq, ha, hb2, hc⟩ := ih (healthStep cfg op h) hmid2 hres2
      exact ⟨op :: pre, op2, post, by rw [heq, List.cons_append], ha, hb2, hc⟩

/-- C2: circuit-breaker monotonicity. Recording a failure whose updated
windowed error rate exceeds the threshold or whose consecutive-failure
count reaches the configured limit flips `healthy` to false and sets the
cooldown to `now + cooldownDuration`; and along any sequence of
record-outcome / attempt-recovery operations starting from an unhealthy
record, the record can only be healthy later if some operation in between
flipped it while its cooldown had elapsed and the windowed error rate it
observed was below the threshold. -/
theorem c2_circuit_breaker_monotonicity :
    (∀ (cfg : ProjectConfig) (h : UpstreamHealth) (rt now : Nat),
        (cfg.errorRateThreshold <
            windowedRate cfg now (h.errors ++ [now]) (h.totalRequests + 1)
          ∨ cfg.health.maxConsecutiveErrors ≤ h.consecutiveErrors + 1) →
        (recordRequestResult cfg h false rt now).isHealthy = false ∧
          (recordRequestResult cfg h false rt now).failoverUntil =
            now + cfg.health.failoverCooldownMs)
    ∧ (∀ (cfg : ProjectConfig) (ops : List HealthOp) (h : UpstreamHealth),
        h.isHealthy = false → (runHealthOps cfg ops h).isHealthy = true →
        ∃ pre op post, ops = pre ++ op :: post
          ∧ (runHealthOps cfg pre h).isHealthy = false
          ∧ (runHealthOps cfg pre h).failoverUntil < op.time
          ∧ observedRate cfg op (runHealthOps cfg pre h) <
              cfg.errorRateThreshold) := by
  constructor
  · intro cfg h rt now hc
    exact recordRequestResult_false_trip cfg h rt now hc
  · intro cfg ops h hh hres
    exact runHealthOps_flip cfg ops h hh hres

/-- C10: healthy-flag transitions. Among all operations that touch a
health record (outcome recording, `markUpstreamRecovered`, the inline
recovery of the Recovery stage, the pruning error-rate computation, and
the Metrics-stage counter bump), only recording a failed outcome can turn
`healthy` from true to false; and every false-to-true transition happens
at an operation whose clock reading is past `failoverUntil` and whose
observed windowed error rate is below the configured threshold. -/
theorem c10_healthy_transitions :
    (∀ (cfg : ProjectConfig) (op : HealthTouch) (h : UpstreamHealth),
        (healthTouchStep cfg op h).isHealthy = false →
        h.isHealthy = false ∨ ∃ rt now, op = HealthTouch.record false rt now)
    ∧ (∀ (cfg : ProjectConfig) (op : HealthTouch) (h : UpstreamHealth),
        h.isHealthy = false → (healthTouchStep cfg op h).isHealthy = true →
        h.failoverUntil < op.time ∧
          touchObservedRate cfg op h < cfg.errorRateThreshold) := by
  constructor
  · intro cfg op h hres
    by_cases hh : h.isHealthy = true
    · cases op with
      | record success rt now =>
        cases success
        · exact Or.inr ⟨rt, now, rfl⟩
        · have hres2 : (recordRequestResult cfg h true rt now).isHealthy = false := hres
          exact absurd
            ((recordRequestResult_success_isHealthy cfg h rt now).2 (Or.inl hh))
            (by simp [hres2])
      | recover now =>
        have hres2 : (markUpstreamRecovered cfg h now).isHealthy = false := hres
        exact absurd (markUpstreamRecovered_mono cfg h now hh) (by simp [hres2])
      | inlineRecover now =>
        have hres2 : (errorRatesRecoverOne cfg now h).isHealthy = false := hres
        exact absurd (errorRatesRecoverOne_mono cfg now h hh) (by simp [hres2])
      | pruneRate now =>
        have : (healthTouchStep cfg (HealthTouch.pruneRate now) h).isHealthy
            = h.isHealthy := calculateErrorRate_isHealthy cfg now h
        rw [this, hh] at hres
        exact absurd hres (by simp)
      | metricsBump m =>
        have : (healthTouchStep cfg (HealthTouch.metricsBump m) h).isHealthy
            = h.isHealthy := metricsBumpHealth_isHealthy m h
        rw [this, hh] at hres
        exact absurd hres (by simp)
    · left
      cases hb : h.isHealthy
      · rfl
      · exact absurd hb hh
  · intro cfg op h hh hres
    cases op with
    | record success rt now =>
      cases success
      · exact absurd (recordRequestResult_false_mono cfg h rt now hres)
          (by simp [hh])
      · have h1 := (recordRequestResult_success_isHealthy cfg h rt now).1 hres
        rcases h1 with h1 | h1
        · exact absurd h1 (by simp [hh])
        · exact ⟨h1.1, h1.2⟩
    | recover now =>
      have h1 := markUpstreamRecovered_flip cfg h now hh hres
      exact ⟨h1.1, h1.2⟩
    | inlineRecover now =>
      have h1 := errorRatesRecoverOne_flip cfg now h hh hres
      exact ⟨h1.1, h1.2⟩
    | pruneRate now =>
      have h2 : (healthTouchStep cfg (HealthTouch.pruneRate now) h).isHealthy
          = h.isHealthy := calculateErrorRate_isHealthy cfg now h
      rw [h2, hh] at hres
      exact absurd hres (by simp)
    | metricsBump m =>
      have h2 : (healthTouchStep cfg (HealthTouch.metricsBump m) h).isHealthy
          = h.isHealthy := metricsBumpHealth_isHealthy m h
      rw [h2, hh] at hres
      exact absurd hres (by simp)
/-- Closed instance of C2: a failure on the near-trip record trips the
breaker with the exact cooldown, and a success recorded on the unhealthy
record after its cooldown makes it healthy only through the decomposition
the theorem provides, every hypothesis discharged on the concrete input. -/
theorem c2_witness :
    (sampleProject.health.maxConsecutiveErrors ≤
        nearTripRecord.consecutiveErrors + 1
      ∧ (recordRequestResult sampleProject nearTripRecord false 0 50).isHealthy
          = false
      ∧ (recordRequestResult sampleProject nearTripRecord false 0 50).failoverUntil
          = 50 + sampleProject.health.failoverCooldownMs)
    ∧ (unhealthyRecord.isHealthy = false
      ∧ (runHealthOps sampleProject [HealthOp.record true 0 500]
            unhealthyRecord).isHealthy = true
      ∧ ∃ pre op post,
          [HealthOp.record true 0 500] = pre ++ op :: post
          ∧ (runHealthOps sampleProject pre unhealthyRecord).isHealthy = false
          ∧ (runHealthOps sampleProject pre unhealthyRecord).failoverUntil
              < op.time
          ∧ observedRate sampleProject op
              (runHealthOps sampleProject pre unhealthyRecord)
              < sampleProject.errorRateThreshold) := by
  refine ⟨⟨by decide, ?_⟩, by decide, by decide, ?_⟩
  · exact c2_circuit_breaker_monotonicity.1 sampleProject nearTripRecord 0 50
      (Or.inr (by decide))
  · exact c2_circuit_breaker_monotonicity.2 sampleProject
      [HealthOp.record true 0 500] unhealthyRecord (by decide) (by decide)

/-- Closed instance of C10: a recorded failure turning the fresh record
unhealthy is the failure-record case, and a recovery attempt on the
unhealthy record past its cooldown flips it healthy with the theorem's
guarantees, every hypothesis discharged on the concrete input. -/
theorem c10_witness :
    ((healthTouchStep sampleProject (HealthTouch.record false 0 5)
          freshHealth).isHealthy = false
      ∧ (freshHealth.isHealthy = false ∨
          ∃ rt now, HealthTouch.record false 0 5 =
            HealthTouch.record false rt now))
    ∧ (unhealthyRecord.isHealthy = false
      ∧ (healthTouchStep sampleProject (HealthTouch.recover 2000)
            unhealthyRecord).isHealthy = true
      ∧ (unhealthyRecord.failoverUntil < (HealthTouch.recover 2000).time
        ∧ touchObservedRate sampleProject (HealthTouch.recover 2000)
            unhealthyRecord < sampleProject.errorRateThreshold)) := by
  refine ⟨⟨by decide, ?_⟩, by decide, by decide, ?_⟩
  · exact c10_healthy_transitions.1 sampleProject
      (HealthTouch.record false 0 5) freshHealth (by decide)
  · exact c10_healthy_transitions.2 sampleProject (HealthTouch.recover 2000)
      unhealthyRecord (by decide) (by decide)

end ERPC
